import Mathlib

/-!
Verification of the tour-assist conversational assistant backend.

The Go sources are shallowly embedded below.  Go strings are byte slices, so
the title post-processing pipeline (which slices bytes) is modelled over
`List Nat` with every element a byte value; the other components, which never
slice inside a UTF-8 sequence, are modelled over Lean `String`/`Char`
(a `Char` models a Go rune).
-/

namespace TourAssist

/-- A Go string viewed as its underlying byte slice. -/
abbrev GoBytes := List Nat

/-- Bytes of an ASCII Lean string, used to spell concrete Go strings in the
byte-level model. -/
def asciiBytes (s : String) : GoBytes :=
  s.toList.map Char.toNat

/-- strings.ReplaceAll(title, "\n", " "): both strings are single bytes, and
0x0A never occurs inside a multi-byte UTF-8 sequence, so the replacement is a
byte map. -/
def goReplaceNewlines (s : GoBytes) : GoBytes :=
  s.map (fun b => if b = 10 then 32 else b)

/-- The cutset of strings.Trim(title, " \t\r\n-\"'"): space, tab, CR, LF,
dash, double quote, single quote.  All cutset runes are ASCII, so the
rune-by-rune trimming of the Go function coincides with byte-by-byte
trimming (an edge byte ≥ 0x80 decodes to a non-ASCII or error rune, which is
never in the cutset, and stops the trim exactly as the byte test does). -/
def trimCutset : List Nat := [32, 9, 13, 10, 45, 34, 39]

/-- Left half of strings.Trim with `trimCutset`. -/
def goTrimLeft (s : GoBytes) : GoBytes :=
  s.dropWhile (fun b => trimCutset.contains b)

/-- Right half of strings.Trim with `trimCutset`. -/
def goTrimRight (s : GoBytes) : GoBytes :=
  (s.reverse.dropWhile (fun b => trimCutset.contains b)).reverse

/-- strings.Trim(s, " \t\r\n-\"'"). -/
def goTrim (s : GoBytes) : GoBytes :=
  goTrimRight (goTrimLeft s)

/-- Whether a codepoint satisfies Go unicode.IsSpace (the White_Space
property: the six ASCII spaces, U+0085, U+00A0, U+1680, U+2000–U+200A,
U+2028, U+2029, U+202F, U+205F, U+3000). -/
def isGoSpaceCp (n : Nat) : Bool :=
  [9, 10, 11, 12, 13, 32, 0x85, 0xA0, 0x1680, 0x2028, 0x2029, 0x202F, 0x205F, 0x3000].contains n
    || (Nat.ble 0x2000 n && Nat.ble n 0x200A)

/-- Whether a byte is a UTF-8 continuation byte (0x80–0xBF). -/
def isCont (b : Nat) : Bool :=
  Nat.ble 0x80 b && Nat.ble b 0xBF

/-- Allowed first continuation byte after a three-byte leader, per Go
utf8.DecodeRune (rejects overlong encodings and surrogates). -/
def cont1ok3 (b c1 : Nat) : Bool :=
  if b = 0xE0 then Nat.ble 0xA0 c1 && Nat.ble c1 0xBF
  else if b = 0xED then Nat.ble 0x80 c1 && Nat.ble c1 0x9F
  else isCont c1

/-- Allowed first continuation byte after a four-byte leader, per Go
utf8.DecodeRune (rejects overlong encodings and codepoints above U+10FFFF). -/
def cont1ok4 (b c1 : Nat) : Bool :=
  if b = 0xF0 then Nat.ble 0x90 c1 && Nat.ble c1 0xBF
  else if b = 0xF4 then Nat.ble 0x80 c1 && Nat.ble c1 0x8F
  else isCont c1

/-- Codepoint of a two-byte UTF-8 sequence. -/
def cp2 (b c1 : Nat) : Nat := (b - 0xC0) * 64 + (c1 - 0x80)

/-- Codepoint of a three-byte UTF-8 sequence. -/
def cp3 (b c1 c2 : Nat) : Nat := (b - 0xE0) * 4096 + (c1 - 0x80) * 64 + (c2 - 0x80)

/-- strings.TrimSpace, left side only: repeatedly decode the leading rune
(per Go utf8.DecodeRune; an invalid or incomplete sequence yields RuneError,
which is not white space and stops the trim) and drop it while it satisfies
unicode.IsSpace.  Four-byte runes are never white space, so the trim always
stops there.  `TrimSpace(s) == ""` if and only if this left trim exhausts
`s`, because when it stops on a non-space rune that rune survives the right
trim as well; the model therefore only needs the left half. -/
def goTrimSpaceLeft : GoBytes → GoBytes
  | [] => []
  | b :: rest =>
    if b < 0x80 then
      (if isGoSpaceCp b then goTrimSpaceLeft rest else b :: rest)
    else if b < 0xC2 then b :: rest
    else if b < 0xE0 then
      (match rest with
       | c1 :: rest1 =>
         if isCont c1 && isGoSpaceCp (cp2 b c1) then goTrimSpaceLeft rest1 else b :: rest
       | [] => b :: rest)
    else if b < 0xF0 then
      (match rest with
       | c1 :: c2 :: rest2 =>
         if cont1ok3 b c1 && isCont c2 && isGoSpaceCp (cp3 b c1 c2) then goTrimSpaceLeft rest2
         else b :: rest
       | _ => b :: rest)
    else b :: rest

/-- Greedy UTF-8 scan of a byte string: the number of complete characters
decoded before the scan stops, and whether the scan stopped because a
multi-byte sequence was truncated by the end of the string (so the string
ends in an incomplete UTF-8 sequence).  Validity of multi-byte sequences
follows Go utf8 (leading bytes 0xC2–0xF4, continuation ranges rejecting
overlong forms and surrogates). -/
def utf8Stat : GoBytes → Nat × Bool
  | [] => (0, false)
  | b :: rest =>
    if b < 0x80 then
      (let p := utf8Stat rest; (p.1 + 1, p.2))
    else if b < 0xC2 then (0, false)
    else if b < 0xE0 then
      (match rest with
       | [] => (0, true)
       | c1 :: rest1 =>
         if isCont c1 then (let p := utf8Stat rest1; (p.1 + 1, p.2)) else (0, false))
    else if b < 0xF0 then
      (match rest with
       | [] => (0, true)
       | [c1] => if cont1ok3 b c1 then (0, true) else (0, false)
       | c1 :: c2 :: rest2 =>
         if cont1ok3 b c1 then
           (if isCont c2 then (let p := utf8Stat rest2; (p.1 + 1, p.2)) else (0, false))
         else (0, false))
    else if b < 0xF5 then
      (match rest with
       | [] => (0, true)
       | [c1] => if cont1ok4 b c1 then (0, true) else (0, false)
       | [c1, c2] => if cont1ok4 b c1 && isCont c2 then (0, true) else (0, false)
       | c1 :: c2 :: c3 :: rest3 =>
         if cont1ok4 b c1 && isCont c2 then
           (if isCont c3 then (let p := utf8Stat rest3; (p.1 + 1, p.2)) else (0, false))
         else (0, false))
    else (0, false)

/-- The post-processing applied by Assistant.Title to the first choice's
content (internal/chat/assistant/assistant.go): collapse newlines to spaces,
trim the cutset, then hard-truncate to 80 bytes (`title[:80]` slices bytes). -/
def titleProcess (content : GoBytes) : GoBytes :=
  let t := goTrim (goReplaceNewlines content)
  if 80 < t.length then t.take 80 else t

/-- Error text of the empty-response failure of Assistant.Title. -/
def emptyTitleRespMsg : String := "empty response from OpenAI for title generation"

/-- Assistant.Title after a successful completion call: the Go guard is
`len(resp.Choices) == 0 || strings.TrimSpace(resp.Choices[0].Message.Content) == ""`,
and otherwise the post-processed first content is returned. -/
def titleFromChoices (choices : List GoBytes) : Except String GoBytes :=
  match choices with
  | [] => .error emptyTitleRespMsg
  | c :: _ =>
    if (goTrimSpaceLeft c).isEmpty then .error emptyTitleRespMsg
    else .ok (titleProcess c)

/-- Roles of chat messages.  The embedding follows internal/chat/model as
used by the assistant: user and assistant messages are replayed, any other
role is ignored when rebuilding history. -/
inductive Role where
  | user
  | assistant
  | tool
deriving DecidableEq

/-- A persisted conversation message (internal/chat/model.Message: only the
fields the assistant reads). -/
structure ChatMsg where
  role : Role
  content : String
deriving DecidableEq

/-- A conversation (internal/chat/model.Conversation: only the field the
assistant reads). -/
structure Conversation where
  messages : List ChatMsg
deriving DecidableEq

/-- Assistant.Title of a conversation.  The single completion call is
modelled by its outcome `svc` (transport error, or the returned choices as
byte strings); the second component counts completion calls performed. -/
def titleCall (conv : Conversation) (svc : Except String (List GoBytes)) :
    Except String GoBytes × Nat :=
  if conv.messages.isEmpty then (.ok (asciiBytes "An empty conversation"), 0)
  else
    match svc with
    | .error e => (.error e, 1)
    | .ok choices => (titleFromChoices choices, 1)

/-- A tool call requested by the model (openai ToolCall: identifier, function
name, raw JSON arguments). -/
structure ToolCall where
  id : String
  name : String
  args : String
deriving DecidableEq

/-- The message of one completion choice: free text plus requested tool
calls. -/
structure RespMessage where
  content : String
  toolCalls : List ToolCall
deriving DecidableEq

/-- Transcript entries sent to the completion service (the
openai.ChatCompletionMessageParamUnion values built by Assistant.Reply). -/
inductive TMsg where
  | system (content : String)
  | user (content : String)
  | assistant (content : String)
  | assistantToolCalls (m : RespMessage)
  | toolResult (content : String) (callId : String)
deriving DecidableEq

/-- The fixed system instruction seeding the Reply transcript. -/
def replySystemPrompt : String :=
  "You are a helpful, concise AI assistant. Provide accurate, safe, and clear responses. For time-sensitive queries (flights, weather forecasts, holidays, etc.), always use the get_today_date tool first to ensure you have the correct current date before making other API calls."

/-- Transcript seeding of Assistant.Reply: the system instruction, then the
persisted user/assistant messages in order (other roles are skipped by the
switch). -/
def seedTranscript (conv : Conversation) : List TMsg :=
  TMsg.system replySystemPrompt ::
    conv.messages.filterMap (fun m =>
      match m.role with
      | .user => some (.user m.content)
      | .assistant => some (.assistant m.content)
      | .tool => none)

/-- Error text returned when the completion service yields no choices. -/
def noChoicesMsg : String := "no choices returned by OpenAI"

/-- Error text returned when the 15-round budget is exhausted. -/
def tooManyMsg : String := "too many tool calls, unable to generate reply"

/-- registry.Execute for one requested call, converted to the transcript
message Assistant.Reply appends: the result text on success, the error text
on failure, either way keyed to the call identifier
(openai.ToolMessage(..., call.ID)). -/
def toolResultMsg (exec : String → String → Except String String) (c : ToolCall) : TMsg :=
  match exec c.name c.args with
  | .ok r => .toolResult r c.id
  | .error e => .toolResult e c.id

/-- Increment the completion-call counter of a loop outcome. -/
def bumpCalls (t : String × Option String × Nat) : String × Option String × Nat :=
  (t.1, t.2.1, t.2.2 + 1)

/-- The bounded reply loop of Assistant.Reply (`for i := 0; i < 15; i++`),
with the remaining iteration budget as fuel.  `svc` is the completion
service (transcript to transport error or choices), `exec` is
registry.Execute.  The outcome is Go's `(string, error)` pair — the reply
text and the error text if any — extended with the number of completion
calls performed. -/
def replyLoop (svc : List TMsg → Except String (List RespMessage))
    (exec : String → String → Except String String) :
    Nat → List TMsg → String × Option String × Nat
  | 0, _ => ("", some tooManyMsg, 0)
  | fuel + 1, msgs =>
    match svc msgs with
    | .error e => ("", some e, 1)
    | .ok [] => ("", some noChoicesMsg, 1)
    | .ok (m :: _) =>
      if m.toolCalls.isEmpty then (m.content, none, 1)
      else
        bumpCalls (replyLoop svc exec fuel
          (msgs ++ .assistantToolCalls m :: m.toolCalls.map (toolResultMsg exec)))

/-- Assistant.Reply: empty-conversation guard, transcript seeding, then the
15-round loop. -/
def reply (svc : List TMsg → Except String (List RespMessage))
    (exec : String → String → Except String String) (conv : Conversation) :
    String × Option String × Nat :=
  if conv.messages.isEmpty then ("", some "conversation has no messages", 0)
  else replyLoop svc exec 15 (seedTranscript conv)

/-- A civil date, as produced by GetAllDayStartAt for an all-day event (Go
time.Time at midnight of that day; comparing such instants with Before/After
is lexicographic comparison of year, month, day). -/
structure GoDate where
  y : Nat
  m : Nat
  d : Nat
deriving DecidableEq

/-- time.Time.Before on all-day instants: strict lexicographic order. -/
def dateLt (a b : GoDate) : Prop :=
  a.y < b.y ∨ (a.y = b.y ∧ (a.m < b.m ∨ (a.m = b.m ∧ a.d < b.d)))

/-- Non-strict companion of `dateLt`. -/
def dateLe (a b : GoDate) : Prop :=
  a.y < b.y ∨ (a.y = b.y ∧ (a.m < b.m ∨ (a.m = b.m ∧ a.d ≤ b.d)))

instance (a b : GoDate) : Decidable (dateLt a b) := by
  unfold dateLt; infer_instance

instance (a b : GoDate) : Decidable (dateLe a b) := by
  unfold dateLe; infer_instance

/-- Zero-pad to two digits (Go time layout "01", "02"). -/
def pad2 (n : Nat) : String :=
  if n < 10 then "0" ++ toString n else toString n

/-- Zero-pad to four digits (Go time layout "2006"). -/
def pad4 (n : Nat) : String :=
  if n < 10 then "000" ++ toString n
  else if n < 100 then "00" ++ toString n
  else if n < 1000 then "0" ++ toString n
  else toString n

/-- date.Format(time.DateOnly): "YYYY-MM-DD". -/
def formatDateOnly (dt : GoDate) : String :=
  pad4 dt.y ++ "-" ++ pad2 dt.m ++ "-" ++ pad2 dt.d

/-- An iCalendar event as read by GetHolidaysTool.Execute: the all-day start
date when GetAllDayStartAt succeeds, and the SUMMARY property value when the
property is present (GetProperty returns nil otherwise). -/
structure VEvent where
  allDayStart : Option GoDate
  summary : Option String
deriving DecidableEq

/-- The decoded tool-call arguments of get_holidays.  Absent JSON fields
leave the Go zero values: a zero time.Time (IsZero, modelled `none`) and a
zero MaxCount. -/
structure HolidayArgs where
  beforeDate : Option GoDate
  afterDate : Option GoDate
  maxCount : Int
deriving DecidableEq

/-- The pre-collected (date, event) pairs of GetHolidaysTool.Execute: events
whose GetAllDayStartAt fails are skipped. -/
def datedEvents (events : List VEvent) : List (GoDate × VEvent) :=
  events.filterMap (fun e => e.allDayStart.map (fun d => (d, e)))

/-- The comparator of the sort.Slice call, lifted to the pairs:
`datedEvents[i].date.Before(datedEvents[j].date)` induces this (non-strict)
ordering of the stable sort. -/
def eventLe (a b : GoDate × VEvent) : Prop :=
  dateLe a.1 b.1

instance (a b : GoDate × VEvent) : Decidable (eventLe a b) := by
  unfold eventLe; infer_instance

/-- sort.Slice(datedEvents, ... Before ...).  For slices of at most 12
elements Go's pdqsort is exactly a stable insertion sort, and a stable sort
of a list is unique, so `List.insertionSort` with the non-strict key order
is that sort; on longer slices the two can differ only in the relative order
of equal dates. -/
def sortDated (l : List (GoDate × VEvent)) : List (GoDate × VEvent) :=
  l.insertionSort eventLe

/-- Summary text of one listing line: the SUMMARY property value, or the
"No summary" fallback when the property is absent. -/
def eventSummary (e : VEvent) : String :=
  match e.summary with
  | some s => s
  | none => "No summary"

/-- One line of the holiday listing: date.Format(time.DateOnly) ++ ": " ++
summary. -/
def holidayLine (p : GoDate × VEvent) : String :=
  formatDateOnly p.1 ++ ": " ++ eventSummary p.2

/-- Skip condition `!payload.BeforeDate.IsZero() && date.After(payload.BeforeDate)`. -/
def skipBefore (args : HolidayArgs) (d : GoDate) : Prop :=
  match args.beforeDate with
  | none => False
  | some b => dateLt b d

/-- Skip condition `!payload.AfterDate.IsZero() && date.Before(payload.AfterDate)`. -/
def skipAfter (args : HolidayArgs) (d : GoDate) : Prop :=
  match args.afterDate with
  | none => False
  | some a => dateLt d a

instance (args : HolidayArgs) (d : GoDate) : Decidable (skipBefore args d) := by
  unfold skipBefore; cases args.beforeDate <;> infer_instance

instance (args : HolidayArgs) (d : GoDate) : Decidable (skipAfter args d) := by
  unfold skipAfter; cases args.afterDate <;> infer_instance

/-- The accumulation loop of GetHolidaysTool.Execute over the sorted
(date, event) pairs: break once MaxCount lines are collected, skip dates
outside the optional bounds, and append the rendered line otherwise. -/
def holidayLoop (args : HolidayArgs) : List (GoDate × VEvent) → List String → List String
  | [], acc => acc
  | item :: rest, acc =>
    if args.maxCount > 0 ∧ (acc.length : Int) ≥ args.maxCount then acc
    else if skipBefore args item.1 then holidayLoop args rest acc
    else if skipAfter args item.1 then holidayLoop args rest acc
    else holidayLoop args rest (acc ++ [holidayLine item])

/-- The same selection loop, accumulating the selected (date, event) pairs
instead of their rendered lines.  The loop's conditions depend on the
accumulator only through its length, so this runs in lockstep with
`holidayLoop` (proved below). -/
def holidayLoopDated (args : HolidayArgs) :
    List (GoDate × VEvent) → List (GoDate × VEvent) → List (GoDate × VEvent)
  | [], acc => acc
  | item :: rest, acc =>
    if args.maxCount > 0 ∧ (acc.length : Int) ≥ args.maxCount then acc
    else if skipBefore args item.1 then holidayLoopDated args rest acc
    else if skipAfter args item.1 then holidayLoopDated args rest acc
    else holidayLoopDated args rest (acc ++ [item])

/-- The listing lines of GetHolidaysTool.Execute for a given decoded event
list and decoded arguments (fetching and parsing the feed, and decoding the
JSON arguments, are the external collaborators). -/
def getHolidaysLines (events : List VEvent) (args : HolidayArgs) : List String :=
  holidayLoop args (sortDated (datedEvents events)) []

/-- The selected (date, event) pairs behind `getHolidaysLines`. -/
def getHolidaysDated (events : List VEvent) (args : HolidayArgs) : List (GoDate × VEvent) :=
  holidayLoopDated args (sortDated (datedEvents events)) []

/-- GetHolidaysTool.Execute's returned string: strings.Join(holidays, "\n"). -/
def getHolidays (events : List VEvent) (args : HolidayArgs) : String :=
  String.intercalate "\n" (getHolidaysLines events args)

/-- The tool-call arguments decoded from an empty JSON object. -/
def noHolidayArgs : HolidayArgs := ⟨none, none, 0⟩

/-- Go regexp \s: [\t\n\f\r ]. -/
def reSpace (c : Char) : Bool :=
  c == ' ' || c == '\t' || c == '\n' || c == Char.ofNat 12 || c == '\r'

/-- The character class [^?.!] of the extraction pattern. -/
def capClass (c : Char) : Bool :=
  !(c == '?' || c == '.' || c == '!')

/-- Case-insensitive match of an ASCII literal (the pattern is given in
lowercase), returning the rest of the input on success. -/
def matchCI : List Char → List Char → Option (List Char)
  | [], s => some s
  | _ :: _, [] => none
  | p :: ps, c :: cs => if c.toLower == p then matchCI ps cs else none

/-- One attempt of the pattern `(?i)weather\s+in\s+([^?.!]+)` anchored at the
start of `s`, returning the capture group.  The space runs are matched
greedily; the only backtracking the pattern ever needs is when the greedy
second run of spaces leaves the capture empty, in which case the engine
gives one space back to the capture (possible only when that run had at
least two characters). -/
def tryMatchAt (s : List Char) : Option (List Char) :=
  match matchCI "weather".toList s with
  | none => none
  | some r1 =>
    let k1 := (r1.takeWhile reSpace).length
    let r2 := r1.dropWhile reSpace
    if k1 == 0 then none
    else
      match matchCI "in".toList r2 with
      | none => none
      | some r3 =>
        let k2 := (r3.takeWhile reSpace).length
        let r4 := r3.dropWhile reSpace
        if k2 == 0 then none
        else
          let cap := r4.takeWhile capClass
          if cap.isEmpty then (if k2 ≥ 2 then some [' '] else none) else some cap

/-- re.FindStringSubmatch: the leftmost position where the pattern matches,
with its capture group. -/
def extractLoc : List Char → Option (List Char)
  | [] => none
  | c :: cs =>
    match tryMatchAt (c :: cs) with
    | some cap => some cap
    | none => extractLoc cs

/-- strings.TrimSpace on a rune string (a Lean `Char` is a rune; the byte
subtleties of invalid UTF-8 do not arise here). -/
def goStrTrimSpace (s : String) : String :=
  String.mk (((s.toList.dropWhile (fun c => isGoSpaceCp c.toNat)).reverse.dropWhile
    (fun c => isGoSpaceCp c.toNat)).reverse)

/-- The "weather in X" extraction loop of GetWeatherTool.Execute: walk the
conversation messages from the last to the first, and take the trimmed
capture of the first user message the pattern matches.  The argument list is
the conversation's messages already reversed. -/
def lastUserExtract : List ChatMsg → Option String
  | [] => none
  | msg :: rest =>
    match msg.role with
    | .user =>
      (match extractLoc msg.content.toList with
       | some cap => some (String.mk cap)
       | none => lastUserExtract rest)
    | _ => lastUserExtract rest

/-- Error text of the location-required failure of GetWeatherTool.Execute
(the Go string quotes the example with U+0027). -/
def weatherLocationRequiredMsg : String :=
  "weather lookup failed: please provide a location (e.g., "
    ++ String.mk [Char.ofNat 39] ++ "weather in Paris" ++ String.mk [Char.ofNat 39] ++ ")"

/-- The three-tier location resolution of GetWeatherTool.Execute: trimmed
payload location, else extraction from the most recent matching user
message, else the WEATHER_DEFAULT_LOCATION environment value, else the
location-required failure. -/
def resolveWeatherLocation (payloadLocation : String) (msgs : List ChatMsg)
    (envDefault : String) : Except String String :=
  let r0 := goStrTrimSpace payloadLocation
  let r1 :=
    if r0.isEmpty then
      (match lastUserExtract msgs.reverse with
       | some cap => goStrTrimSpace cap
       | none => "")
    else r0
  let r2 := if r1.isEmpty then envDefault else r1
  if r2.isEmpty then .error weatherLocationRequiredMsg else .ok r2

/-- A flight offer row as extracted from the offer-search response
(FlightDestination). -/
structure FlightDestination where
  origin : String
  destination : String
  departureDate : String
  returnDate : String
  price : String
deriving DecidableEq

/-- The decoded tool-call arguments of get_flight_prices.  A missing
maxPrice decodes to the zero value. -/
structure FlightArgs where
  origin : String
  destination : String
  departureDate : String
  maxPrice : Int
deriving DecidableEq

/-- The AMADEUS_API_KEY / AMADEUS_API_SECRET environment values (os.Getenv
returns "" when a variable is unset). -/
structure AmadeusEnv where
  apiKey : String
  apiSecret : String
deriving DecidableEq

/-- The two outbound HTTP endpoints of the flight tool, modelled by their
outcomes; each is reached only by actually issuing one HTTP request, which
the embedding counts. -/
structure AmadeusNet where
  tokenResult : Except String String
  searchResult : Except String (List FlightDestination)

/-- strings.ToUpper restricted to ASCII (IATA codes are ASCII). -/
def goToUpper (s : String) : String :=
  String.mk (s.toList.map Char.toUpper)

/-- FetchAmadeusToken: fail closed on missing credentials before any HTTP
request; otherwise one POST to the OAuth2 token endpoint.  The second
component counts HTTP requests. -/
def fetchAmadeusToken (net : AmadeusNet) (apiKey apiSecret : String) :
    Except String String × Nat :=
  if apiKey.isEmpty then (.error "missing AMADEUS_API_KEY", 0)
  else if apiSecret.isEmpty then (.error "missing AMADEUS_API_SECRET", 0)
  else (net.tokenResult, 1)

/-- FetchFlightDestinations: validate inputs before any HTTP request;
otherwise one GET to the offer-search endpoint. -/
def fetchFlightDestinations (net : AmadeusNet) (token origin destination departureDate : String) :
    Except String (List FlightDestination) × Nat :=
  if token.isEmpty then (.error "missing access token", 0)
  else if origin.isEmpty then (.error "missing origin", 0)
  else if destination.isEmpty then (.error "missing destination", 0)
  else if departureDate.isEmpty then (.error "missing departure date", 0)
  else (net.searchResult, 1)

/-- Departure-time rendering of one offer line: the HH:MM byte slice
[11:16] of the ISO datetime when it is long enough (the datetimes are
ASCII, so byte indices are character indices). -/
def flightDepTime (f : FlightDestination) : String :=
  if f.departureDate.length ≥ 16 then String.mk ((f.departureDate.toList.drop 11).take 5)
  else f.departureDate

/-- One numbered offer line of the formatted response. -/
def flightLine (i : Nat) (f : FlightDestination) : String :=
  toString (i + 1) ++ ". " ++ f.origin ++ " → " ++ f.destination ++ " at "
    ++ flightDepTime f ++ ": " ++ f.price

/-- The formatted non-empty offer listing: header plus numbered lines. -/
def formatFlightList (origin destination departureDate : String)
    (flights : List FlightDestination) : String :=
  let header := "Found " ++ toString flights.length ++ " flight option"
    ++ (if flights.length ≠ 1 then "s" else "") ++ " from " ++ origin ++ " to "
    ++ destination ++ " on " ++ departureDate ++ ":"
  String.intercalate "\n" (header :: (flights.enum.map (fun p => flightLine p.1 p.2)))

/-- Error text of the missing-credentials failure of
GetFlightPricesTool.Execute. -/
def flightCredsMsg : String :=
  "amadeus API credentials not configured - please set AMADEUS_API_KEY and AMADEUS_API_SECRET environment variables"

/-- GetFlightPricesTool.Execute on decoded arguments: validate the trimmed
(and for the IATA codes, uppercased) fields, fail closed when either
credential is unset, then fetch the OAuth2 token and the offers, counting
HTTP requests. -/
def getFlightPricesExecute (net : AmadeusNet) (env : AmadeusEnv) (args : FlightArgs) :
    Except String String × Nat :=
  let origin := goStrTrimSpace (goToUpper args.origin)
  if origin.isEmpty then (.error "origin is required", 0)
  else
    let destination := goStrTrimSpace (goToUpper args.destination)
    if destination.isEmpty then (.error "destination is required", 0)
    else
      let departureDate := goStrTrimSpace args.departureDate
      if departureDate.isEmpty then (.error "departure date is required", 0)
      else if env.apiKey.isEmpty || env.apiSecret.isEmpty then (.error flightCredsMsg, 0)
      else
        match fetchAmadeusToken net env.apiKey env.apiSecret with
        | (.error e, n) => (.error ("flight search failed: " ++ e), n)
        | (.ok token, n) =>
          match fetchFlightDestinations net token origin destination departureDate with
          | (.error e, k) => (.error ("flight search failed: " ++ e), n + k)
          | (.ok flights, k) =>
            if flights.isEmpty then (.ok "No flights found matching your criteria.", n + k)
            else (.ok (formatFlightList origin destination departureDate flights), n + k)

/-- Whether the first byte of a string is outside the Trim cutset (vacuously
true for the empty string). -/
def headNotCut (s : GoBytes) : Bool :=
  match s.head? with
  | none => true
  | some b => !(trimCutset.contains b)

/-- Whether the last byte of a string is outside the Trim cutset (vacuously
true for the empty string). -/
def lastNotCut (s : GoBytes) : Bool :=
  match s.getLast? with
  | none => true
  | some b => !(trimCutset.contains b)

/-- A completion choice that always requests one tool call (a fake service
response used to exercise the loop bound). -/
def fakeRespMsg : RespMessage := ⟨"x", [⟨"1", "noop", "null"⟩]⟩

/-- A fake completion service that always requests a tool call. -/
def fakeToolSvc : List TMsg → Except String (List RespMessage) :=
  fun _ => .ok [fakeRespMsg]

/-- A fake completion service that always fails with a transport error. -/
def boomSvc : List TMsg → Except String (List RespMessage) :=
  fun _ => .error "boom"

/-- A registry executor that knows no tools (registry.Execute on an
unregistered name). -/
def fakeExec : String → String → Except String String :=
  fun n _ => .error ("unknown tool: " ++ n)

/-- A one-message conversation. -/
def oneMsgConv : Conversation := ⟨[⟨.user, "hi"⟩]⟩

/-- Concrete flight-tool inputs used to witness the fail-closed theorem. -/
def flightNetW : AmadeusNet := ⟨.ok "tok", .ok []⟩

/-- Claim C8: for every conversation with zero messages, Title returns
exactly the sentinel string "An empty conversation" with no error and
performs no completion-service call. -/
theorem title_c8_empty_conversation (conv : Conversation)
    (svc : Except String (List GoBytes)) (h : conv.messages = []) :
    titleCall conv svc = (.ok (asciiBytes "An empty conversation"), 0) := by
  simp [titleCall, h]

/-- Witness for C8 at a concrete empty conversation. -/
theorem title_c8_empty_conversation_witness :
    (Conversation.mk []).messages = []
      ∧ titleCall ⟨[]⟩ (.ok []) = (.ok (asciiBytes "An empty conversation"), 0) :=
  ⟨rfl, title_c8_empty_conversation ⟨[]⟩ (.ok []) rfl⟩

/-- Claim C7, counterexample: the completion content "-" (one dash, byte 45)
is not all-whitespace, so Title does not fail, yet trimming leaves the empty
title, which is returned silently — refuting "Title never silently returns a
blank title". -/
theorem title_c7_counterexample :
    titleFromChoices [[45]] = .ok [] ∧ (goTrimSpaceLeft [45]).isEmpty = false :=
  ⟨rfl, rfl⟩

/-- Claim C7, amended: Title fails (with the "empty response" error) exactly
when the completion service returns zero choices or a content that is
all-whitespace after trimming; but when it returns without error the title
can still be blank, namely when the content consists only of trim-cutset
characters such as "-". -/
theorem title_c7_empty_response :
    (∀ choices : List GoBytes,
      titleFromChoices choices =
        if (choices.isEmpty || (goTrimSpaceLeft (choices.headD [])).isEmpty) = true
        then .error emptyTitleRespMsg
        else .ok (titleProcess (choices.headD [])))
    ∧ titleFromChoices [[45]] = .ok [] := by
  constructor
  · intro choices
    cases choices with
    | nil => simp [titleFromChoices]
    | cons c cs =>
      by_cases h : (goTrimSpaceLeft c).isEmpty <;> simp [titleFromChoices, h]
  · rfl

/-- Claim C10: an event with a valid all-day start date but no SUMMARY
property does not crash the listing; it is rendered as its date followed by
": No summary". -/
theorem holidays_c10_no_summary (dt : GoDate) :
    getHolidays [⟨some dt, none⟩] noHolidayArgs = formatDateOnly dt ++ ": No summary" := by
  have h : getHolidays [⟨some dt, none⟩] noHolidayArgs
      = (formatDateOnly dt ++ ": ") ++ "No summary" := rfl
  rw [h, String.append_assoc]
  rfl

/-- Claim C4, counterexample: with an empty location argument and the last
user message "weather in Paris please", the resolved location is
"Paris please" — the greedy capture group [^?.!]+ runs to the end of the
message — not the "Paris" the claim states. -/
theorem weather_c4_counterexample :
    resolveWeatherLocation "" [⟨Role.user, "weather in Paris please"⟩] "Berlin" = .ok "Paris please"
      ∧ resolveWeatherLocation "" [⟨Role.user, "weather in Paris please"⟩] "Berlin" ≠ .ok "Paris" := by
  refine ⟨rfl, ?_⟩
  simp only [show resolveWeatherLocation "" [⟨Role.user, "weather in Paris please"⟩] "Berlin"
      = .ok "Paris please" from rfl, ne_eq, Except.ok.injEq]
  decide

/-- Claim C4, amended: with an empty location argument and the last user
message "weather in Paris please", the resolved location is "Paris please",
obtained by extraction from that message — the configured default/environment
fallback is never consulted (the result is the same for every environment
value). -/
theorem weather_c4_extraction (envDefault : String) :
    resolveWeatherLocation "" [⟨Role.user, "weather in Paris please"⟩] envDefault
      = .ok "Paris please" := by
  rfl

/-- Claim C6: with non-empty (after trimming/uppercasing) origin,
destination and departure date, and either Amadeus credential unset, the
flight-price tool fails with the credentials-missing error and issues zero
HTTP requests: neither the OAuth2 token call nor the offer-search call is
performed. -/
theorem flights_c6_creds_fail_closed (net : AmadeusNet) (env : AmadeusEnv) (args : FlightArgs)
    (h1 : (goStrTrimSpace (goToUpper args.origin)).isEmpty = false)
    (h2 : (goStrTrimSpace (goToUpper args.destination)).isEmpty = false)
    (h3 : (goStrTrimSpace args.departureDate).isEmpty = false)
    (h4 : (env.apiKey.isEmpty || env.apiSecret.isEmpty) = true) :
    getFlightPricesExecute net env args = (.error flightCredsMsg, 0) := by
  simp [getFlightPricesExecute, h1, h2, h3, h4]

/-- Witness for C6 at a concrete payload with AMADEUS_API_KEY unset. -/
theorem flights_c6_creds_fail_closed_witness :
    ((goStrTrimSpace (goToUpper (FlightArgs.mk "bcn" "MAD" "2025-10-18" 0).origin)).isEmpty = false
        ∧ ((AmadeusEnv.mk "" "sec").apiKey.isEmpty || (AmadeusEnv.mk "" "sec").apiSecret.isEmpty) = true)
      ∧ getFlightPricesExecute flightNetW ⟨"", "sec"⟩ ⟨"bcn", "MAD", "2025-10-18", 0⟩
          = (.error flightCredsMsg, 0) :=
  ⟨⟨rfl, rfl⟩,
   flights_c6_creds_fail_closed flightNetW ⟨"", "sec"⟩ ⟨"bcn", "MAD", "2025-10-18", 0⟩ rfl rfl rfl rfl⟩

/-- When the completion service always requests tool calls, every loop round
consumes one unit of fuel and one completion call and recurses. -/
theorem replyLoop_all_toolCalls (svc : List TMsg → Except String (List RespMessage))
    (exec : String → String → Except String String)
    (hsvc : ∀ msgs, ∃ m ms, svc msgs = .ok (m :: ms) ∧ m.toolCalls ≠ []) :
    ∀ (n : Nat) (msgs : List TMsg), replyLoop svc exec n msgs = ("", some tooManyMsg, n) := by
  intro n
  induction n with
  | zero => intro msgs; rfl
  | succ k ih =>
    intro msgs
    obtain ⟨m, ms, hs, htc⟩ := hsvc msgs
    have hemp : m.toolCalls.isEmpty = false := by
      simpa [List.isEmpty_iff] using htc
    simp [replyLoop, hs, hemp, ih, bumpCalls]

/-- Claim C2: for every conversation with at least one message, if the
completion service on every round returns a choice carrying at least one
tool call, Reply terminates after exactly 15 completion calls with the empty
reply and the "too many tool calls" error. -/
theorem reply_c2_halts_at_15 (svc : List TMsg → Except String (List RespMessage))
    (exec : String → String → Except String String) (conv : Conversation)
    (hconv : conv.messages ≠ [])
    (hsvc : ∀ msgs, ∃ m ms, svc msgs = .ok (m :: ms) ∧ m.toolCalls ≠ []) :
    reply svc exec conv = ("", some tooManyMsg, 15) := by
  have hemp : conv.messages.isEmpty = false := by simpa [List.isEmpty_iff] using hconv
  simp only [reply, hemp, Bool.false_eq_true, if_false]
  exact replyLoop_all_toolCalls svc exec hsvc 15 (seedTranscript conv)

/-- Witness for C2: a fake completion service that always requests a no-op
tool call drives Reply to the 15-round bound. -/
theorem reply_c2_halts_at_15_witness :
    (oneMsgConv.messages ≠ []
        ∧ ∀ msgs, ∃ m ms, fakeToolSvc msgs = .ok (m :: ms) ∧ m.toolCalls ≠ [])
      ∧ reply fakeToolSvc fakeExec oneMsgConv = ("", some tooManyMsg, 15) :=
  ⟨⟨by simp [oneMsgConv], fun msgs => ⟨fakeRespMsg, [], rfl, by simp [fakeRespMsg]⟩⟩,
   reply_c2_halts_at_15 fakeToolSvc fakeExec oneMsgConv (by simp [oneMsgConv])
     (fun msgs => ⟨fakeRespMsg, [], rfl, by simp [fakeRespMsg]⟩)⟩

/-- Claim C5: a failing tool execution never aborts the loop.  First, the
transcript message appended for a failing call is exactly the error text
keyed to that call's identifier; second, a round whose choice carries tool
calls always proceeds to the next round (one more completion call), with the
per-call result messages appended after the model's tool-call message,
whatever the executor returned; third, any error Reply's loop produces is a
completion-service transport error, the zero-choices error, or the
round-budget error — never a tool's error. -/
theorem reply_c5_tool_errors_recovered :
    (∀ (exec : String → String → Except String String) (c : ToolCall) (err : String),
        exec c.name c.args = .error err → toolResultMsg exec c = .toolResult err c.id)
    ∧ (∀ (svc : List TMsg → Except String (List RespMessage))
        (exec : String → String → Except String String)
        (n : Nat) (msgs : List TMsg) (m : RespMessage) (ms : List RespMessage),
        svc msgs = .ok (m :: ms) → m.toolCalls ≠ [] →
        replyLoop svc exec (n + 1) msgs =
          bumpCalls (replyLoop svc exec n
            (msgs ++ .assistantToolCalls m :: m.toolCalls.map (toolResultMsg exec))))
    ∧ (∀ (svc : List TMsg → Except String (List RespMessage))
        (exec : String → String → Except String String)
        (n : Nat) (msgs : List TMsg) (r e : String) (k : Nat),
        replyLoop svc exec n msgs = (r, some e, k) →
        (∃ ms, svc ms = .error e) ∨ e = noChoicesMsg ∨ e = tooManyMsg) := by
  refine ⟨?_, ?_, ?_⟩
  · intro exec c err h
    simp [toolResultMsg, h]
  · intro svc exec n msgs m ms hs htc
    have hemp : m.toolCalls.isEmpty = false := by simpa [List.isEmpty_iff] using htc
    simp [replyLoop, hs, hemp]
  · intro svc exec n
    induction n with
    | zero =>
      intro msgs r e k h
      simp only [replyLoop, Prod.mk.injEq] at h
      exact Or.inr (Or.inr (Option.some.inj h.2.1).symm)
    | succ nn ih =>
      intro msgs r e k h
      rw [replyLoop] at h
      cases hs : svc msgs with
      | error e2 =>
        rw [hs] at h
        simp only [Prod.mk.injEq] at h
        exact Or.inl ⟨msgs, by rw [hs, Option.some.inj h.2.1]⟩
      | ok choices =>
        rw [hs] at h
        cases choices with
        | nil =>
          simp only [Prod.mk.injEq] at h
          exact Or.inr (Or.inl (Option.some.inj h.2.1).symm)
        | cons m ms =>
          dsimp only at h
          by_cases hemp : m.toolCalls.isEmpty
          · rw [if_pos hemp] at h
            simp only [Prod.mk.injEq] at h
            exact absurd h.2.1 (by simp)
          · rw [if_neg hemp] at h
            rcases hx : replyLoop svc exec nn
                (msgs ++ .assistantToolCalls m :: m.toolCalls.map (toolResultMsg exec)) with
              ⟨r2, e2, k2⟩
            rw [hx] at h
            simp only [bumpCalls, Prod.mk.injEq] at h
            exact ih _ r e k2 (by rw [hx, h.2.1, h.1])

/-- Witness for C5: a concrete failing executor produces the error-text tool
message, a concrete tool-call round continues the loop, and a concrete
failing loop run yields a completion-service error. -/
theorem reply_c5_tool_errors_recovered_witness :
    toolResultMsg fakeExec ⟨"1", "noop", "null"⟩ = .toolResult "unknown tool: noop" "1"
      ∧ replyLoop fakeToolSvc fakeExec 1 [] =
          bumpCalls (replyLoop fakeToolSvc fakeExec 0
            ([] ++ .assistantToolCalls fakeRespMsg
              :: fakeRespMsg.toolCalls.map (toolResultMsg fakeExec)))
      ∧ ((∃ ms, boomSvc ms = .error "boom") ∨ "boom" = noChoicesMsg ∨ "boom" = tooManyMsg) :=
  ⟨reply_c5_tool_errors_recovered.1 fakeExec ⟨"1", "noop", "null"⟩ "unknown tool: noop" rfl,
   reply_c5_tool_errors_recovered.2.1 fakeToolSvc fakeExec 0 [] fakeRespMsg [] rfl
     (by simp [fakeRespMsg]),
   reply_c5_tool_errors_recovered.2.2 boomSvc fakeExec 1 [] "" "boom" 1 rfl⟩

/-- A byte at the head of a dropWhile result fails the dropped predicate. -/
theorem dropWhile_head?_not (p : Nat → Bool) :
    ∀ (l : GoBytes) (b : Nat), (l.dropWhile p).head? = some b → p b = false := by
  intro l
  induction l with
  | nil => intro b h; simp at h
  | cons a t ih =>
    intro b h
    rw [List.dropWhile_cons] at h
    by_cases hp : p a
    · rw [if_pos hp] at h
      exact ih b h
    · rw [if_neg hp] at h
      simp only [List.head?_cons, Option.some.injEq] at h
      rw [← h]
      simpa using hp

/-- The right trim returns a prefix of its input. -/
theorem goTrimRight_leading (s : GoBytes) : goTrimRight s <+: s := by
  have h := (List.dropWhile_suffix (l := s.reverse)
    (p := fun b => trimCutset.contains b)).reverse
  simpa [goTrimRight] using h

/-- The head of a non-empty prefix is the head of the whole list. -/
theorem head?_of_leading {l₁ l₂ : GoBytes} (h : l₁ <+: l₂) {b : Nat}
    (hb : l₁.head? = some b) : l₂.head? = some b := by
  obtain ⟨t, rfl⟩ := h
  cases l₁ with
  | nil => simp at hb
  | cons x xs => simpa using hb

/-- Taking a positive number of elements preserves the optional head. -/
theorem head?_take_of_pos {l : GoBytes} {n : Nat} (h : n ≠ 0) :
    (l.take n).head? = l.head? := by
  cases n with
  | zero => exact absurd rfl h
  | succ k => cases l <;> simp

/-- The processed title never exceeds 80 bytes. -/
theorem titleProcess_length_le (c : GoBytes) : (titleProcess c).length ≤ 80 := by
  unfold titleProcess
  by_cases h : 80 < (goTrim (goReplaceNewlines c)).length
  · simp only [h, if_true, List.length_take]
    exact Nat.min_le_left _ _
  · simp only [h, if_false]
    omega

/-- Newline collapsing removes every newline byte. -/
theorem not_mem_goReplaceNewlines (c : GoBytes) : 10 ∉ goReplaceNewlines c := by
  unfold goReplaceNewlines
  intro h
  obtain ⟨a, _, hEq⟩ := List.mem_map.mp h
  by_cases h10 : a = 10 <;> simp [h10] at hEq

/-- The processed title is a sublist of the newline-collapsed content. -/
theorem titleProcess_sublist (c : GoBytes) :
    (titleProcess c).Sublist (goReplaceNewlines c) := by
  have h1 : (goTrimLeft (goReplaceNewlines c)).Sublist (goReplaceNewlines c) :=
    List.dropWhile_sublist _
  have h2 : (goTrim (goReplaceNewlines c)).Sublist (goTrimLeft (goReplaceNewlines c)) :=
    (goTrimRight_leading _).sublist
  have h3 : (titleProcess c).Sublist (goTrim (goReplaceNewlines c)) := by
    unfold titleProcess
    by_cases h : 80 < (goTrim (goReplaceNewlines c)).length
    · simp only [h, if_true]
      exact List.take_sublist _ _
    · simp only [h, if_false]
      exact List.Sublist.refl _
  exact (h3.trans h2).trans h1

/-- The first byte of the processed title is outside the trim cutset. -/
theorem headNotCut_titleProcess (c : GoBytes) : headNotCut (titleProcess c) = true := by
  unfold headNotCut
  cases hh : (titleProcess c).head? with
  | none => rfl
  | some b =>
    have h1 : (goTrim (goReplaceNewlines c)).head? = some b := by
      revert hh
      unfold titleProcess
      by_cases h : 80 < (goTrim (goReplaceNewlines c)).length
      · simp only [h, if_true]
        intro hh
        rw [← head?_take_of_pos (l := goTrim (goReplaceNewlines c)) (n := 80) (by omega)]
        exact hh
      · simp only [h, if_false]
        exact id
    have h2 : (goTrimLeft (goReplaceNewlines c)).head? = some b :=
      head?_of_leading (goTrimRight_leading _) h1
    have h3 := dropWhile_head?_not _ _ b h2
    simp
    simpa using h3

/-- The last byte of a right-trimmed string is outside the trim cutset. -/
theorem lastNotCut_goTrimRight (x : GoBytes) : lastNotCut (goTrimRight x) = true := by
  unfold lastNotCut goTrimRight
  cases hh : ((x.reverse.dropWhile (fun b => trimCutset.contains b)).reverse).getLast? with
  | none => rfl
  | some b =>
    rw [List.getLast?_reverse] at hh
    have h3 := dropWhile_head?_not _ _ b hh
    simp
    simpa using h3

/-- Claim C3, counterexample: on the 81-byte content of 79 "a" bytes, a
space, and "b", trimming happens before the byte truncation, so the
truncated title ends in the space byte 32 — refuting "no trailing
whitespace". -/
theorem title_c3_counterexample :
    lastNotCut (titleProcess (List.replicate 79 97 ++ [32, 98])) = false
      ∧ (titleProcess (List.replicate 79 97 ++ [32, 98])).getLast? = some 32 := by
  decide

/-- Claim C3, amended: every returned title is at most 80 bytes, contains no
newline, and starts with a byte outside the trim cutset (whitespace, quote,
dash); when the collapsed-and-trimmed content is at most 80 bytes — i.e. no
truncation occurs — it also ends with a byte outside the cutset, but the
80-byte truncation can leave a trailing cutset byte. -/
theorem title_c3_invariants (c : GoBytes) :
    ((titleProcess c).length ≤ 80 ∧ 10 ∉ titleProcess c
        ∧ headNotCut (titleProcess c) = true)
      ∧ ((goTrim (goReplaceNewlines c)).length ≤ 80 → lastNotCut (titleProcess c) = true) := by
  refine ⟨⟨titleProcess_length_le c, ?_, headNotCut_titleProcess c⟩, ?_⟩
  · exact fun h => not_mem_goReplaceNewlines c ((titleProcess_sublist c).subset h)
  · intro h
    have heq : titleProcess c = goTrim (goReplaceNewlines c) := by
      unfold titleProcess
      rw [if_neg (by omega)]
    rw [heq]
    exact lastNotCut_goTrimRight _

/-- Witness for C3 at a short concrete content where no truncation occurs. -/
theorem title_c3_invariants_witness :
    (((titleProcess (asciiBytes "Weather in Barcelona")).length ≤ 80
        ∧ 10 ∉ titleProcess (asciiBytes "Weather in Barcelona")
        ∧ headNotCut (titleProcess (asciiBytes "Weather in Barcelona")) = true)
      ∧ lastNotCut (titleProcess (asciiBytes "Weather in Barcelona")) = true) :=
  ⟨(title_c3_invariants (asciiBytes "Weather in Barcelona")).1,
   (title_c3_invariants (asciiBytes "Weather in Barcelona")).2 (by decide)⟩

/-- Claim C9: the 80 limit is enforced on bytes — every returned title is at
most 80 bytes — and on the 81-byte content of 79 "a" bytes followed by the
two-byte character U+00B0 (0xC2 0xB0), the truncation splits the character:
the returned title is exactly the 79 "a" bytes plus the lone leading byte
0xC2, so it decodes to 79 complete characters (fewer than 80) and ends in an
incomplete UTF-8 sequence. -/
theorem title_c9_byte_truncation :
    (∀ c : GoBytes, (titleProcess c).length ≤ 80)
      ∧ titleProcess (List.replicate 79 97 ++ [194, 176]) = List.replicate 79 97 ++ [194]
      ∧ utf8Stat (titleProcess (List.replicate 79 97 ++ [194, 176])) = (79, true)
      ∧ (goTrim (goReplaceNewlines (List.replicate 79 97 ++ [194, 176]))).length = 81 :=
  ⟨titleProcess_length_le, by decide, by decide, by decide⟩

instance : IsTrans (GoDate × VEvent) eventLe :=
  ⟨by
    intro a b c hab hbc
    unfold eventLe dateLe at hab hbc ⊢
    omega⟩

instance : IsTotal (GoDate × VEvent) eventLe :=
  ⟨by
    intro a b
    unfold eventLe dateLe
    omega⟩

/-- The date order is antisymmetric. -/
theorem dateLe_antisymm {a b : GoDate} (h1 : dateLe a b) (h2 : dateLe b a) : a = b := by
  obtain ⟨y1, m1, d1⟩ := a
  obtain ⟨y2, m2, d2⟩ := b
  unfold dateLe at h1 h2
  dsimp only at h1 h2
  simp only [GoDate.mk.injEq]
  omega

/-- The listing loop runs in lockstep with its pair-accumulating variant:
both inspect the accumulator only through its length. -/
theorem holidayLoop_eq_map (args : HolidayArgs) :
    ∀ (l acc : List (GoDate × VEvent)),
      holidayLoop args l (acc.map holidayLine) = (holidayLoopDated args l acc).map holidayLine := by
  intro l
  induction l with
  | nil => intro acc; rfl
  | cons item rest ih =>
    intro acc
    simp only [holidayLoop, holidayLoopDated, List.length_map]
    split_ifs with h1 h2 h3
    · rfl
    · exact ih acc
    · exact ih acc
    · have h := ih (acc ++ [item])
      simpa [List.map_append] using h

/-- The listing lines are the rendered selected pairs. -/
theorem getHolidaysLines_eq_map (events : List VEvent) (args : HolidayArgs) :
    getHolidaysLines events args = (getHolidaysDated events args).map holidayLine := by
  have h := holidayLoop_eq_map args (sortDated (datedEvents events)) []
  simpa [getHolidaysLines, getHolidaysDated] using h

/-- The loop only ever appends a subsequence of its input to the
accumulator. -/
theorem holidayLoopDated_sublist (args : HolidayArgs) :
    ∀ (l acc : List (GoDate × VEvent)),
      ∃ s, holidayLoopDated args l acc = acc ++ s ∧ s.Sublist l := by
  intro l
  induction l with
  | nil => intro acc; exact ⟨[], by simp [holidayLoopDated], List.Sublist.refl _⟩
  | cons item rest ih =>
    intro acc
    simp only [holidayLoopDated]
    split_ifs with h1 h2 h3
    · exact ⟨[], by simp, List.nil_sublist _⟩
    · obtain ⟨s, hs, hsub⟩ := ih acc
      exact ⟨s, hs, hsub.cons item⟩
    · obtain ⟨s, hs, hsub⟩ := ih acc
      exact ⟨s, hs, hsub.cons item⟩
    · obtain ⟨s, hs, hsub⟩ := ih (acc ++ [item])
      refine ⟨item :: s, ?_, hsub.cons₂ item⟩
      rw [hs, List.append_assoc]
      rfl

/-- The dates of the selected listing entries are ascending. -/
theorem getHolidaysDated_dates_sorted (events : List VEvent) (args : HolidayArgs) :
    ((getHolidaysDated events args).map Prod.fst).Sorted dateLe := by
  have hs : (sortDated (datedEvents events)).Sorted eventLe :=
    List.sorted_insertionSort eventLe (datedEvents events)
  obtain ⟨s, heq, hsub⟩ := holidayLoopDated_sublist args (sortDated (datedEvents events)) []
  rw [getHolidaysDated, heq]
  simp only [List.nil_append]
  have hss : s.Pairwise eventLe := List.Pairwise.sublist hsub hs
  exact List.pairwise_map.mpr hss

/-- Two sorted permutations of each other with pairwise-distinct dates are
equal: sortedness plus distinctness is strict sortedness, and the strict
order is antisymmetric. -/
theorem sorted_perm_distinct_eq {l1 l2 : List (GoDate × VEvent)} (hp : l1.Perm l2)
    (hs1 : l1.Sorted eventLe) (hs2 : l2.Sorted eventLe)
    (hd : (l1.map Prod.fst).Pairwise (fun a b => a ≠ b)) : l1 = l2 := by
  have hd1 : l1.Pairwise (fun a b => a.1 ≠ b.1) := List.pairwise_map.mp hd
  have hd2 : l2.Pairwise (fun a b => a.1 ≠ b.1) :=
    (hp.pairwise_iff (fun {x y} h he => h he.symm)).mp hd1
  have hs1' : l1.Pairwise (fun a b => eventLe a b ∧ a.1 ≠ b.1) := hs1.and hd1
  have hs2' : l2.Pairwise (fun a b => eventLe a b ∧ a.1 ≠ b.1) := hs2.and hd2
  haveI : IsAntisymm (GoDate × VEvent) (fun a b => eventLe a b ∧ a.1 ≠ b.1) :=
    ⟨fun a b h1 h2 => absurd (dateLe_antisymm h1.1 h2.1) h1.2⟩
  exact List.eq_of_perm_of_sorted hp hs1' hs2'

/-- Claim C1, counterexample: two events sharing a date but with different
summaries.  The swapped feed order is a permutation of the original, yet the
two listings differ, because the stable sort keeps equal dates in feed
order — refuting "for any permutation of the input events the output is
identical". -/
theorem holidays_c1_counterexample :
    List.Perm [(⟨some ⟨2025, 1, 1⟩, some "B"⟩ : VEvent), ⟨some ⟨2025, 1, 1⟩, some "A"⟩]
        [⟨some ⟨2025, 1, 1⟩, some "A"⟩, ⟨some ⟨2025, 1, 1⟩, some "B"⟩]
      ∧ getHolidays [⟨some ⟨2025, 1, 1⟩, some "B"⟩, ⟨some ⟨2025, 1, 1⟩, some "A"⟩] noHolidayArgs
          ≠ getHolidays [⟨some ⟨2025, 1, 1⟩, some "A"⟩, ⟨some ⟨2025, 1, 1⟩, some "B"⟩] noHolidayArgs := by
  exact ⟨List.Perm.swap _ _ _, by decide⟩

/-- Claim C1, amended: the listing is the newline-join of "date: summary"
lines whose event dates are ascending, for every argument payload and
however the feed orders the events; and whenever the events' (valid) dates
are pairwise distinct, any permutation of the input events yields the
identical output.  (Events sharing a date keep their feed-relative order
under the stable sort, so full permutation-invariance holds only with
distinct dates.) -/
theorem holidays_c1_sorted_deterministic :
    (∀ (events : List VEvent) (args : HolidayArgs),
        getHolidaysLines events args = (getHolidaysDated events args).map holidayLine)
      ∧ (∀ (events : List VEvent) (args : HolidayArgs),
          ((getHolidaysDated events args).map Prod.fst).Sorted dateLe)
      ∧ (∀ (events events2 : List VEvent) (args : HolidayArgs),
          events2.Perm events →
          ((datedEvents events).map Prod.fst).Pairwise (fun a b => a ≠ b) →
          getHolidays events2 args = getHolidays events args) := by
  refine ⟨getHolidaysLines_eq_map, getHolidaysDated_dates_sorted, ?_⟩
  intro events events2 args hp hd
  have hpd : (datedEvents events2).Perm (datedEvents events) := hp.filterMap _
  have h1 : (sortDated (datedEvents events2)).Perm (sortDated (datedEvents events)) :=
    (List.perm_insertionSort eventLe _).trans
      (hpd.trans (List.perm_insertionSort eventLe _).symm)
  have hs2 : (sortDated (datedEvents events2)).Sorted eventLe :=
    List.sorted_insertionSort eventLe _
  have hs1 : (sortDated (datedEvents events)).Sorted eventLe :=
    List.sorted_insertionSort eventLe _
  have hmapperm :
      ((sortDated (datedEvents events2)).map Prod.fst).Perm
        ((datedEvents events).map Prod.fst) :=
    ((List.perm_insertionSort eventLe (datedEvents events2)).map Prod.fst).trans
      (hpd.map Prod.fst)
  have hd2 : ((sortDated (datedEvents events2)).map Prod.fst).Pairwise (fun a b => a ≠ b) :=
    (hmapperm.pairwise_iff (fun {x y} h he => h he.symm)).mpr hd
  have heq : sortDated (datedEvents events2) = sortDated (datedEvents events) :=
    sorted_perm_distinct_eq h1 hs2 hs1 hd2
  unfold getHolidays getHolidaysLines
  rw [heq]

/-- Witness for C1 at a concrete two-event feed with distinct dates, checked
in both orders. -/
theorem holidays_c1_sorted_deterministic_witness :
    (List.Perm [(⟨some ⟨2025, 5, 2⟩, some "Y"⟩ : VEvent), ⟨some ⟨2025, 5, 1⟩, some "X"⟩]
          [⟨some ⟨2025, 5, 1⟩, some "X"⟩, ⟨some ⟨2025, 5, 2⟩, some "Y"⟩]
        ∧ ((datedEvents [(⟨some ⟨2025, 5, 1⟩, some "X"⟩ : VEvent),
              ⟨some ⟨2025, 5, 2⟩, some "Y"⟩]).map Prod.fst).Pairwise (fun a b => a ≠ b))
      ∧ getHolidays [⟨some ⟨2025, 5, 2⟩, some "Y"⟩, ⟨some ⟨2025, 5, 1⟩, some "X"⟩] noHolidayArgs
          = getHolidays [⟨some ⟨2025, 5, 1⟩, some "X"⟩, ⟨some ⟨2025, 5, 2⟩, some "Y"⟩] noHolidayArgs :=
  ⟨⟨List.Perm.swap _ _ _, by decide⟩,
   holidays_c1_sorted_deterministic.2.2 _ _ noHolidayArgs (List.Perm.swap _ _ _) (by decide)⟩

end TourAssist
